import Mathlib

/-!
Verification of the BSONObjBuilder core (bsonobjbuilder.cpp): the type-bounds
generator (appendMinForType / appendMaxForType), the buffer-composition
operations (appendElements, appendElementsUnique, appendKeys), the textual
numeric coercer (appendAsNumber), and the small-integer string cache
(numStrs / numStrsReady).

The builder's effect is modelled as the list of element-append calls it makes;
each call records the element kind, the field name and the payload, so two
call sequences are equal exactly when the appended element bytes are equal
(the per-type encoders are deterministic functions of these descriptors).
-/

namespace BSONBuilder

/-! ## Type tags

The BSON type-tag enumeration (a fixed, numerically stable set of integer
constants, consumed by the switch dispatch in the source). -/

namespace BSONType

def MinKey : Int := -1
def EOO : Int := 0
def NumberDouble : Int := 1
def «String» : Int := 2
def Object : Int := 3
def Array : Int := 4
def BinData : Int := 5
def Undefined : Int := 6
def jstOID : Int := 7
def Bool : Int := 8
def Date : Int := 9
def jstNULL : Int := 10
def RegEx : Int := 11
def DBRef : Int := 12
def Code : Int := 13
def Symbol : Int := 14
def CodeWScope : Int := 15
def NumberInt : Int := 16
def Timestamp : Int := 17
def NumberLong : Int := 18
def MaxKey : Int := 127

end BSONType

/-! ## Element-append calls

One constructor per element-append primitive the source invokes; the
primitives themselves (append, appendBool, appendTimestamp, ...) are header
code outside the analysed file, so an element is kept as its descriptor:
kind, field name and payload. Doubles are modelled as exact rationals. -/

inductive AppendCall where
  | double (fieldName : String) (v : Rat)
  | str (fieldName : String) (s : String)
  | boolv (fieldName : String) (b : Bool)
  | date (fieldName : String) (millis : Int)
  | timestamp (fieldName : String) (seconds increment : Int)
  | undefined (fieldName : String)
  | minKey (fieldName : String)
  | maxKey (fieldName : String)
  | oid (fieldName : String) (bytes12 : List Nat)
  | nullv (fieldName : String)
  | object (fieldName : String) (doc : List Nat)
  | array (fieldName : String) (doc : List Nat)
  | binData (fieldName : String) (len : Nat) (subtype : Nat) (data : List Nat)
  | regex (fieldName : String) (pattern flags : String)
  | dbref (fieldName : String) (ns : String) (oidBytes : List Nat)
  | code (fieldName : String) (s : String)
  | codeWScope (fieldName : String) (s : String) (scope : List Nat)
  deriving DecidableEq, Repr

/-- Largest finite double, numeric_limits double max, as an exact rational:
(2 - 2 ^ -52) * 2 ^ 1023. -/
def dblMax : Rat := 2 ^ 1024 - 2 ^ 971

/-- Encoded bytes of the empty BSON document: int32 length 5 and terminator. -/
def emptyDocBytes : List Nat := [5, 0, 0, 0, 0]

/-- Zero-valued 12-byte object id (default-constructed OID). -/
def oidZero : List Nat := List.replicate 12 0

/-- All-0xFF 12-byte object id (OID max). -/
def oidMax : List Nat := List.replicate 12 255

/-- Modelled from the spec: uassert / log are error-handling code outside the
analysed file; per the spec an unsupported tag is a fatal condition, a
diagnostic is emitted and the operation terminates unconditionally. A fatal
outcome is recorded as the assertion code plus the diagnostic message. -/
structure Fatal where
  code : Nat
  msg : String
  deriving DecidableEq, Repr

/-- appendMinForType: the switch over the type tag, translated case by case;
result is the list of element-append calls performed and the fatal outcome
(none for every supported tag). -/
def appendMinForType (fieldName : String) (t : Int) : List AppendCall × Option Fatal :=
  if t = BSONType.NumberInt ∨ t = BSONType.NumberDouble ∨ t = BSONType.NumberLong then
    ([.double fieldName (-dblMax)], none)
  else if t = BSONType.Symbol ∨ t = BSONType.String then
    ([.str fieldName ""], none)
  else if t = BSONType.Date then
    ([.boolv fieldName true], none)
  else if t = BSONType.Timestamp then
    ([.timestamp fieldName 0 0], none)
  else if t = BSONType.Undefined then
    ([.undefined fieldName], none)
  else if t = BSONType.MinKey then
    ([.minKey fieldName], none)
  else if t = BSONType.MaxKey then
    ([.maxKey fieldName], none)
  else if t = BSONType.jstOID then
    ([.oid fieldName oidZero], none)
  else if t = BSONType.Bool then
    ([.boolv fieldName false], none)
  else if t = BSONType.jstNULL then
    ([.nullv fieldName], none)
  else if t = BSONType.Object then
    ([.object fieldName emptyDocBytes], none)
  else if t = BSONType.Array then
    ([.array fieldName emptyDocBytes], none)
  else if t = BSONType.BinData then
    ([.binData fieldName 0 0 []], none)
  else if t = BSONType.RegEx then
    ([.regex fieldName "" ""], none)
  else if t = BSONType.DBRef then
    ([.dbref fieldName "" oidZero], none)
  else if t = BSONType.Code then
    ([.code fieldName ""], none)
  else if t = BSONType.CodeWScope then
    ([.codeWScope fieldName "" emptyDocBytes], none)
  else
    ([], some ⟨10061, "type not supported for appendMinElementForType"⟩)

/-- appendMaxForType: the switch over the type tag; the ordering-sensitive
cases delegate to appendMinForType of the next tag in canonical order,
exactly as the source does. -/
def appendMaxForType (fieldName : String) (t : Int) : List AppendCall × Option Fatal :=
  if t = BSONType.NumberInt ∨ t = BSONType.NumberDouble ∨ t = BSONType.NumberLong then
    ([.double fieldName dblMax], none)
  else if t = BSONType.Symbol ∨ t = BSONType.String then
    appendMinForType fieldName BSONType.Object
  else if t = BSONType.Date then
    ([.date fieldName (2 ^ 63 - 1)], none)
  else if t = BSONType.Timestamp then
    ([.timestamp fieldName (2 ^ 31 - 1) (2 ^ 31 - 1)], none)
  else if t = BSONType.Undefined then
    ([.undefined fieldName], none)
  else if t = BSONType.MinKey then
    ([.minKey fieldName], none)
  else if t = BSONType.MaxKey then
    ([.maxKey fieldName], none)
  else if t = BSONType.jstOID then
    ([.oid fieldName oidMax], none)
  else if t = BSONType.Bool then
    ([.boolv fieldName true], none)
  else if t = BSONType.jstNULL then
    ([.nullv fieldName], none)
  else if t = BSONType.Object then
    appendMinForType fieldName BSONType.Array
  else if t = BSONType.Array then
    appendMinForType fieldName BSONType.BinData
  else if t = BSONType.BinData then
    appendMinForType fieldName BSONType.jstOID
  else if t = BSONType.RegEx then
    appendMinForType fieldName BSONType.DBRef
  else if t = BSONType.DBRef then
    appendMinForType fieldName BSONType.Code
  else if t = BSONType.Code then
    appendMinForType fieldName BSONType.CodeWScope
  else if t = BSONType.CodeWScope then
    appendMinForType fieldName BSONType.MaxKey
  else
    ([], some ⟨14853, "type not supported for appendMaxElementForType"⟩)

/-- The documented successor chain of the canonical cross-type order
(stated by the spec; BSONType.Symbol shares the String slot). -/
def specSuccessor (t : Int) : Option Int :=
  if t = BSONType.String ∨ t = BSONType.Symbol then some BSONType.Object
  else if t = BSONType.Object then some BSONType.Array
  else if t = BSONType.Array then some BSONType.BinData
  else if t = BSONType.BinData then some BSONType.jstOID
  else if t = BSONType.RegEx then some BSONType.DBRef
  else if t = BSONType.DBRef then some BSONType.Code
  else if t = BSONType.Code then some BSONType.CodeWScope
  else if t = BSONType.CodeWScope then some BSONType.MaxKey
  else none

/-- The set of type tags handled by the switches of appendMinForType and
appendMaxForType (both switches cover exactly these cases). -/
def supportedTags : List Int :=
  [BSONType.NumberInt, BSONType.NumberDouble, BSONType.NumberLong, BSONType.Symbol, BSONType.String, BSONType.Date,
   BSONType.Timestamp, BSONType.Undefined, BSONType.MinKey, BSONType.MaxKey, BSONType.jstOID, BSONType.Bool, BSONType.jstNULL,
   BSONType.Object, BSONType.Array, BSONType.BinData, BSONType.RegEx, BSONType.DBRef, BSONType.Code, BSONType.CodeWScope]


/-! ## Encoded elements and the buffer composer

BSONElement / BSONObjIterator are header code outside the analysed file; a
top-level element is modelled as its (name, tag, payload) triple and a
decoded document as the list of its top-level elements, iterated in order. -/

structure BElem where
  name : String
  tag : Int
  payload : List Nat
  deriving DecidableEq, Repr

/-- The while loop of appendKeys: as long as both iterators have more
elements, append the next element of values renamed to the next field name of
the pattern (appendAs keeps tag and payload, replaces the name). -/
def appendKeysLoop : List BElem → List BElem → List BElem
  | p :: ps, v :: vs => { v with name := p.name } :: appendKeysLoop ps vs
  | _, _ => []

/-- appendKeys: run the zip loop, then the two verify checks. The result is
the list of elements appended to the builder and the fatal outcome of the
verify checks (verify is error-handling code outside the analysed file;
modelled from the spec: a failed check is a fatal precondition violation). -/
def appendKeys (keyPattern values : List BElem) : List BElem × Option Fatal :=
  (appendKeysLoop keyPattern values,
   if keyPattern.length > values.length then some (Fatal.mk 0 "assertion failure in appendKeys: pattern iterator exhausted check")
   else if values.length > keyPattern.length then some (Fatal.mk 0 "assertion failure in appendKeys: values iterator exhausted check")
   else none)

/-- appendElementsUnique: collect the set of field names already written into
the builder (one pass over its iterator), then append each element of x whose
name is not in that set. The builder is modelled as the list of its already
written top-level elements; the result is the builder content after the call. -/
def appendElementsUnique (builder x : List BElem) : List BElem :=
  let haveNames := builder.map BElem.name
  builder ++ x.filter (fun e => !(haveNames.contains e.name))

/-- An encoded document: the raw byte range of a BSON object, starting with
its 4-byte little-endian length and ending with the 0x00 terminator. -/
structure EncodedDoc where
  bytes : List Nat
  deriving DecidableEq, Repr

/-- objsize: the 4-byte little-endian length prefix of the encoding. -/
def EncodedDoc.objsize (d : EncodedDoc) : Nat :=
  (d.bytes.getD 0 0) + 256 * (d.bytes.getD 1 0) + 65536 * (d.bytes.getD 2 0)
    + 16777216 * (d.bytes.getD 3 0)

/-- Modelled from the spec: isEmpty is header code outside the analysed file;
per the spec an empty document has length 5 (and every document has length at
least 5), so emptiness is objsize not exceeding 5. -/
def EncodedDoc.isEmpty (d : EncodedDoc) : Bool := d.objsize ≤ 5

/-- A well-formed encoding: the byte list has exactly objsize bytes (each a
byte value), at least 5 of them, and ends with the 0x00 terminator. -/
def EncodedDoc.wf (d : EncodedDoc) : Prop :=
  d.bytes.length = d.objsize ∧ 5 ≤ d.objsize ∧ d.bytes.getLast? = some 0
    ∧ ∀ b ∈ d.bytes, b < 256

/-- appendElements: unless x is empty, append the raw byte range starting 4
bytes past the front of x's encoding and of length objsize - 5 to the
builder's buffer (modelled as the byte list written so far). -/
def appendElements (buf : List Nat) (x : EncodedDoc) : List Nat :=
  if !x.isEmpty then buf ++ (x.bytes.drop 4).take (x.objsize - 5) else buf

/-! ## The numeric coercer appendAsNumber -/

/-- isdigit on a character (C locale): a decimal digit. -/
def isDigitChar (c : Char) : Bool := '0' ≤ c && c ≤ '9'

/-- The character-filter loop of appendAsNumber, scanning the text after the
optional leading minus: digits pass; a dot passes unless one was already
seen; anything else rejects (none). Returns whether a dot was seen. -/
def scanDigits : List Char → Bool → Option Bool
  | [], hasDec => some hasDec
  | c :: rest, hasDec =>
    if isDigitChar c then scanDigits rest hasDec
    else if c = '.' then
      (if hasDec then none else scanDigits rest true)
    else none

/-- Value of a digit character. -/
def digitVal (c : Char) : Nat := c.toNat - 48

/-- Decimal value of a digit string (most significant first). -/
def digitsVal (l : List Char) : Nat :=
  l.foldl (fun acc c => 10 * acc + digitVal c) 0

/-- Decimal integer value of a text with an optional leading minus: the model
of atoi on short all-digit texts (where no overflow can occur). -/
def decIntVal (cs : List Char) : Int :=
  if cs.head? = some '-' then -(digitsVal cs.tail : Int) else (digitsVal cs : Int)

/-- Split a character list at the first dot (dot removed). -/
def splitAtDot : List Char → List Char × List Char
  | [] => ([], [])
  | c :: rest =>
    if c = '.' then ([], rest)
    else
      let p := splitAtDot rest
      (c :: p.1, p.2)

/-- Model of atof on texts made of an optional minus, digits and at most one
dot: the exact decimal value as a rational (the further rounding to the
nearest double is out of scope; no claim depends on it). A text with no
digits converts to 0. -/
def atofVal (cs : List Char) : Rat :=
  let body := if cs.head? = some '-' then cs.tail else cs
  let sign : Rat := if cs.head? = some '-' then -1 else 1
  let p := splitAtDot body
  sign * ((digitsVal p.1 : Rat) + (digitsVal p.2 : Rat) / (10 : Rat) ^ p.2.length)

/-- Model of boost lexical_cast to long long: the full text must be an
optional minus followed by at least one digit, and the value must fit the
64-bit signed range; otherwise the cast fails. -/
def lexicalCastLL (cs : List Char) : Option Int :=
  let body := if cs.head? = some '-' then cs.tail else cs
  if body ≠ [] ∧ body.all isDigitChar then
    if -(2 ^ 63) ≤ decIntVal cs ∧ decIntVal cs < 2 ^ 63 then some (decIntVal cs)
    else none
  else none

/-- A numeric field appended by appendAsNumber: a double, a 32-bit int or a
64-bit long, with its field name. -/
inductive NumField where
  | dbl (fieldName : String) (v : Rat)
  | int32 (fieldName : String) (v : Int)
  | int64 (fieldName : String) (v : Int)
  deriving DecidableEq, Repr

/-- The field name of an appended numeric field. -/
def NumField.fname : NumField → String
  | .dbl f _ => f
  | .int32 f _ => f
  | .int64 f _ => f

/-- appendAsNumber on the character list of the text: none models returning
false with the builder untouched; some nf models returning true having
appended exactly the one numeric field nf. -/
def appendAsNumberCore (fieldName : String) (cs : List Char) : Option NumField :=
  if cs = [] ∨ cs = ['-'] ∨ cs = ['.'] then none
  else
    (scanDigits (if cs.head? = some '-' then cs.tail else cs) false).bind fun hasDec =>
      if hasDec then some (.dbl fieldName (atofVal cs))
      else if cs.length < 8 then some (.int32 fieldName (decIntVal cs))
      else (lexicalCastLL cs).map fun num => NumField.int64 fieldName num

/-- appendAsNumber on a string. -/
def appendAsNumber (fieldName : String) (data : String) : Option NumField :=
  appendAsNumberCore fieldName data.data

/-! ## The small-integer string cache -/

/-- numStrsSize: the size of the numeric-string table (header constant;
per the spec the table has 1024 entries). -/
def numStrsSize : Nat := 1024

/-- numStrs: the literal table of decimal strings, entry for entry as in
the source. -/
def numStrs : List String := [
  "0", "1", "2", "3", "4", "5", "6", "7", "8", "9", "10", "11", "12", "13", "14",
  "15", "16", "17", "18", "19", "20", "21", "22", "23", "24", "25", "26", "27", "28", "29",
  "30", "31", "32", "33", "34", "35", "36", "37", "38", "39", "40", "41", "42", "43", "44",
  "45", "46", "47", "48", "49", "50", "51", "52", "53", "54", "55", "56", "57", "58", "59",
  "60", "61", "62", "63", "64", "65", "66", "67", "68", "69", "70", "71", "72", "73", "74",
  "75", "76", "77", "78", "79", "80", "81", "82", "83", "84", "85", "86", "87", "88", "89",
  "90", "91", "92", "93", "94", "95", "96", "97", "98", "99", "100", "101", "102", "103", "104",
  "105", "106", "107", "108", "109", "110", "111", "112", "113", "114", "115", "116", "117", "118", "119",
  "120", "121", "122", "123", "124", "125", "126", "127", "128", "129", "130", "131", "132", "133", "134",
  "135", "136", "137", "138", "139", "140", "141", "142", "143", "144", "145", "146", "147", "148", "149",
  "150", "151", "152", "153", "154", "155", "156", "157", "158", "159", "160", "161", "162", "163", "164",
  "165", "166", "167", "168", "169", "170", "171", "172", "173", "174", "175", "176", "177", "178", "179",
  "180", "181", "182", "183", "184", "185", "186", "187", "188", "189", "190", "191", "192", "193", "194",
  "195", "196", "197", "198", "199", "200", "201", "202", "203", "204", "205", "206", "207", "208", "209",
  "210", "211", "212", "213", "214", "215", "216", "217", "218", "219", "220", "221", "222", "223", "224",
  "225", "226", "227", "228", "229", "230", "231", "232", "233", "234", "235", "236", "237", "238", "239",
  "240", "241", "242", "243", "244", "245", "246", "247", "248", "249", "250", "251", "252", "253", "254",
  "255", "256", "257", "258", "259", "260", "261", "262", "263", "264", "265", "266", "267", "268", "269",
  "270", "271", "272", "273", "274", "275", "276", "277", "278", "279", "280", "281", "282", "283", "284",
  "285", "286", "287", "288", "289", "290", "291", "292", "293", "294", "295", "296", "297", "298", "299",
  "300", "301", "302", "303", "304", "305", "306", "307", "308", "309", "310", "311", "312", "313", "314",
  "315", "316", "317", "318", "319", "320", "321", "322", "323", "324", "325", "326", "327", "328", "329",
  "330", "331", "332", "333", "334", "335", "336", "337", "338", "339", "340", "341", "342", "343", "344",
  "345", "346", "347", "348", "349", "350", "351", "352", "353", "354", "355", "356", "357", "358", "359",
  "360", "361", "362", "363", "364", "365", "366", "367", "368", "369", "370", "371", "372", "373", "374",
  "375", "376", "377", "378", "379", "380", "381", "382", "383", "384", "385", "386", "387", "388", "389",
  "390", "391", "392", "393", "394", "395", "396", "397", "398", "399", "400", "401", "402", "403", "404",
  "405", "406", "407", "408", "409", "410", "411", "412", "413", "414", "415", "416", "417", "418", "419",
  "420", "421", "422", "423", "424", "425", "426", "427", "428", "429", "430", "431", "432", "433", "434",
  "435", "436", "437", "438", "439", "440", "441", "442", "443", "444", "445", "446", "447", "448", "449",
  "450", "451", "452", "453", "454", "455", "456", "457", "458", "459", "460", "461", "462", "463", "464",
  "465", "466", "467", "468", "469", "470", "471", "472", "473", "474", "475", "476", "477", "478", "479",
  "480", "481", "482", "483", "484", "485", "486", "487", "488", "489", "490", "491", "492", "493", "494",
  "495", "496", "497", "498", "499", "500", "501", "502", "503", "504", "505", "506", "507", "508", "509",
  "510", "511", "512", "513", "514", "515", "516", "517", "518", "519", "520", "521", "522", "523", "524",
  "525", "526", "527", "528", "529", "530", "531", "532", "533", "534", "535", "536", "537", "538", "539",
  "540", "541", "542", "543", "544", "545", "546", "547", "548", "549", "550", "551", "552", "553", "554",
  "555", "556", "557", "558", "559", "560", "561", "562", "563", "564", "565", "566", "567", "568", "569",
  "570", "571", "572", "573", "574", "575", "576", "577", "578", "579", "580", "581", "582", "583", "584",
  "585", "586", "587", "588", "589", "590", "591", "592", "593", "594", "595", "596", "597", "598", "599",
  "600", "601", "602", "603", "604", "605", "606", "607", "608", "609", "610", "611", "612", "613", "614",
  "615", "616", "617", "618", "619", "620", "621", "622", "623", "624", "625", "626", "627", "628", "629",
  "630", "631", "632", "633", "634", "635", "636", "637", "638", "639", "640", "641", "642", "643", "644",
  "645", "646", "647", "648", "649", "650", "651", "652", "653", "654", "655", "656", "657", "658", "659",
  "660", "661", "662", "663", "664", "665", "666", "667", "668", "669", "670", "671", "672", "673", "674",
  "675", "676", "677", "678", "679", "680", "681", "682", "683", "684", "685", "686", "687", "688", "689",
  "690", "691", "692", "693", "694", "695", "696", "697", "698", "699", "700", "701", "702", "703", "704",
  "705", "706", "707", "708", "709", "710", "711", "712", "713", "714", "715", "716", "717", "718", "719",
  "720", "721", "722", "723", "724", "725", "726", "727", "728", "729", "730", "731", "732", "733", "734",
  "735", "736", "737", "738", "739", "740", "741", "742", "743", "744", "745", "746", "747", "748", "749",
  "750", "751", "752", "753", "754", "755", "756", "757", "758", "759", "760", "761", "762", "763", "764",
  "765", "766", "767", "768", "769", "770", "771", "772", "773", "774", "775", "776", "777", "778", "779",
  "780", "781", "782", "783", "784", "785", "786", "787", "788", "789", "790", "791", "792", "793", "794",
  "795", "796", "797", "798", "799", "800", "801", "802", "803", "804", "805", "806", "807", "808", "809",
  "810", "811", "812", "813", "814", "815", "816", "817", "818", "819", "820", "821", "822", "823", "824",
  "825", "826", "827", "828", "829", "830", "831", "832", "833", "834", "835", "836", "837", "838", "839",
  "840", "841", "842", "843", "844", "845", "846", "847", "848", "849", "850", "851", "852", "853", "854",
  "855", "856", "857", "858", "859", "860", "861", "862", "863", "864", "865", "866", "867", "868", "869",
  "870", "871", "872", "873", "874", "875", "876", "877", "878", "879", "880", "881", "882", "883", "884",
  "885", "886", "887", "888", "889", "890", "891", "892", "893", "894", "895", "896", "897", "898", "899",
  "900", "901", "902", "903", "904", "905", "906", "907", "908", "909", "910", "911", "912", "913", "914",
  "915", "916", "917", "918", "919", "920", "921", "922", "923", "924", "925", "926", "927", "928", "929",
  "930", "931", "932", "933", "934", "935", "936", "937", "938", "939", "940", "941", "942", "943", "944",
  "945", "946", "947", "948", "949", "950", "951", "952", "953", "954", "955", "956", "957", "958", "959",
  "960", "961", "962", "963", "964", "965", "966", "967", "968", "969", "970", "971", "972", "973", "974",
  "975", "976", "977", "978", "979", "980", "981", "982", "983", "984", "985", "986", "987", "988", "989",
  "990", "991", "992", "993", "994", "995", "996", "997", "998", "999", "1000", "1001", "1002", "1003", "1004",
  "1005", "1006", "1007", "1008", "1009", "1010", "1011", "1012", "1013", "1014", "1015", "1016", "1017", "1018", "1019",
  "1020", "1021", "1022", "1023"]

/-- numStrsReady: computed from the first table entry being non-empty. -/
def numStrsReady : Bool := decide (0 < (numStrs.headD "").length)


/-! ## Spec-side predicates used to state the claims -/

/-- A character the filter loop lets through: a decimal digit or a dot. -/
def validChar (c : Char) : Bool := isDigitChar c || c == '.'

/-- The character-filter condition as the spec words it: after an optional
single leading minus, every character is a decimal digit or a dot, and there
is at most one dot. -/
def numTextOK (cs : List Char) : Bool :=
  (if cs.head? = some '-' then cs.tail else cs).all validChar
    && decide ((if cs.head? = some '-' then cs.tail else cs).count '.' ≤ 1)

/-- The rejection predicate exactly as the claim states it: empty text, the
bare minus or dot, a character other than an optional single leading minus,
decimal digits and at most one dot, or a dotless text of at least 8
characters whose decimal value falls outside the signed 64-bit range (the
64-bit parse attempted for long texts fails). -/
def rejectsSpec (cs : List Char) : Prop :=
  cs = [] ∨ cs = ['-'] ∨ cs = ['.']
    ∨ numTextOK cs = false
    ∨ (('.' ∉ cs) ∧ 8 ≤ cs.length
        ∧ (decIntVal cs < -(2 ^ 63) ∨ 2 ^ 63 ≤ decIntVal cs))

/-- A text made of an optional single leading minus followed by one or more
decimal digits and nothing else (the shape of the claim about the short
32-bit path). -/
def intText (cs : List Char) : Prop :=
  (if cs.head? = some '-' then cs.tail else cs) ≠ []
    ∧ (if cs.head? = some '-' then cs.tail else cs).all isDigitChar = true

/-! ## Helper lemmas -/

/-- The zip loop of appendKeys produces exactly the positional zip of the two
element lists, truncated at the shorter one. -/
theorem appendKeysLoop_eq_zip (ps vs : List BElem) :
    appendKeysLoop ps vs
      = (ps.zip vs).map (fun pv => { pv.2 with name := pv.1.name }) := by
  induction ps generalizing vs with
  | nil => cases vs <;> simp [appendKeysLoop]
  | cons p ps ih =>
    cases vs with
    | nil => simp [appendKeysLoop]
    | cons v vs => simp [appendKeysLoop, ih]

/-! ## Claim theorems -/

/-- C1: for every tag of the documented successor chain (String and Symbol,
Object, Array, BinData, RegEx, DBRef, Code, CodeWScope), appendMaxForType
appends exactly the same element as appendMinForType of the successor tag
(String to Object, Object to Array, Array to BinData, BinData to ObjectId,
RegEx to DBRef, DBRef to Code, Code to CodeWScope, CodeWScope to MaxKey). -/
theorem appendMax_eq_appendMin_successor (fieldName : String) (t u : Int)
    (h : specSuccessor t = some u) :
    appendMaxForType fieldName t = appendMinForType fieldName u := by
  unfold specSuccessor at h
  split_ifs at h with h1 h2 h3 h4 h5 h6 h7 h8
  · cases Option.some.inj h
    rcases h1 with rfl | rfl
    · rfl
    · rfl
  · cases Option.some.inj h; subst h2; rfl
  · cases Option.some.inj h; subst h3; rfl
  · cases Option.some.inj h; subst h4; rfl
  · cases Option.some.inj h; subst h5; rfl
  · cases Option.some.inj h; subst h6; rfl
  · cases Option.some.inj h; subst h7; rfl
  · cases Option.some.inj h; subst h8; rfl

/-- Witness for C1: the String link of the chain, evaluated concretely. -/
theorem appendMax_eq_appendMin_successor_witness :
    specSuccessor BSONType.String = some BSONType.Object
    ∧ appendMaxForType "a" BSONType.String = appendMinForType "a" BSONType.Object :=
  ⟨rfl, appendMax_eq_appendMin_successor "a" BSONType.String BSONType.Object rfl⟩

/-- C2: for every tag outside the supported set, appendMinForType and
appendMaxForType append no element and end in the fatal diagnostic-and-abort
outcome (uassert codes 10061 and 14853). -/
theorem appendBoundsForType_unsupported (fieldName : String) (t : Int)
    (h : t ∉ supportedTags) :
    appendMinForType fieldName t
        = ([], some ⟨10061, "type not supported for appendMinElementForType"⟩)
    ∧ appendMaxForType fieldName t
        = ([], some ⟨14853, "type not supported for appendMaxElementForType"⟩) := by
  simp only [supportedTags, List.mem_cons, List.not_mem_nil, or_false, not_or] at h
  obtain ⟨h1, h2, h3, h4, h5, h6, h7, h8, h9, h10,
    h11, h12, h13, h14, h15, h16, h17, h18, h19, h20⟩ := h
  constructor
  · simp [appendMinForType, h1, h2, h3, h4, h5, h6, h7, h8, h9, h10,
      h11, h12, h13, h14, h15, h16, h17, h18, h19, h20]
  · simp [appendMaxForType, h1, h2, h3, h4, h5, h6, h7, h8, h9, h10,
      h11, h12, h13, h14, h15, h16, h17, h18, h19, h20]

/-- Witness for C2: tag 0 (end-of-object) is outside the supported set and is
fatal for both generators. -/
theorem appendBoundsForType_unsupported_witness :
    ((0 : Int) ∉ supportedTags)
    ∧ appendMinForType "a" 0
        = ([], some ⟨10061, "type not supported for appendMinElementForType"⟩)
    ∧ appendMaxForType "a" 0
        = ([], some ⟨14853, "type not supported for appendMaxElementForType"⟩) :=
  ⟨by decide, (appendBoundsForType_unsupported "a" 0 (by decide)).1,
    (appendBoundsForType_unsupported "a" 0 (by decide)).2⟩

/-- C3 counterexample: with a one-element pattern against a two-element
values document the counts differ, appendKeys does end fatally, yet one
renamed element (the value 5 under the pattern name x) has already been
appended: the builder content is not unchanged on the mismatch path. -/
theorem appendKeys_mismatch_cex :
    (appendKeys [BElem.mk "x" 16 [1]]
        [BElem.mk "a" 16 [5], BElem.mk "b" 16 [6]]).2.isSome = true
    ∧ (appendKeys [BElem.mk "x" 16 [1]]
        [BElem.mk "a" 16 [5], BElem.mk "b" 16 [6]]).1 = [BElem.mk "x" 16 [5]] := by
  decide

/-- C3 amended: on mismatched element counts appendKeys still fails fatally,
but before the failing check it has zipped the common prefix: the appended
elements are exactly the positional zip of the two documents truncated at the
shorter one (so the builder is extended, not left unchanged, whenever the
shorter document is non-empty). -/
theorem appendKeys_mismatch_zip (keyPattern values : List BElem)
    (h : keyPattern.length ≠ values.length) :
    (appendKeys keyPattern values).2.isSome = true
    ∧ (appendKeys keyPattern values).1
        = (keyPattern.zip values).map (fun pv => { pv.2 with name := pv.1.name }) := by
  constructor
  · simp only [appendKeys]
    split_ifs with h1 h2
    · rfl
    · rfl
    · omega
  · simpa only [appendKeys] using appendKeysLoop_eq_zip keyPattern values

/-- Witness for C3 amended: concrete mismatched documents. -/
theorem appendKeys_mismatch_zip_witness :
    (([BElem.mk "x" 16 [1]] : List BElem).length
        ≠ ([BElem.mk "a" 16 [5], BElem.mk "b" 16 [6]] : List BElem).length)
    ∧ (appendKeys [BElem.mk "x" 16 [1]]
        [BElem.mk "a" 16 [5], BElem.mk "b" 16 [6]]).2.isSome = true :=
  ⟨by decide,
    (appendKeys_mismatch_zip [BElem.mk "x" 16 [1]]
      [BElem.mk "a" 16 [5], BElem.mk "b" 16 [6]] (by decide)).1⟩

/-- C6: appendElementsUnique keeps every element already in the builder
unchanged (the appended result starts with the old content) and appends
exactly those elements of the other document whose name is not among the
names already present, in their original order (first writer wins). -/
theorem appendElementsUnique_spec (builder x : List BElem) :
    (appendElementsUnique builder x).take builder.length = builder
    ∧ (appendElementsUnique builder x).drop builder.length
        = x.filter (fun e => !((builder.map BElem.name).contains e.name)) := by
  constructor
  · simp only [appendElementsUnique]
    exact List.take_left builder _
  · simp only [appendElementsUnique]
    exact List.drop_left builder _

/-- C10: the deduplication set of appendElementsUnique is computed once from
the builder and never extended while iterating the argument, so all
duplicates inside the argument whose shared name is absent from the builder
are appended, every one of them. -/
theorem appendElementsUnique_dup_names (builder x : List BElem) (n : String)
    (h : n ∉ builder.map BElem.name) :
    ((appendElementsUnique builder x).drop builder.length).filter
        (fun e => e.name == n)
      = x.filter (fun e => e.name == n) := by
  have hdrop : (appendElementsUnique builder x).drop builder.length
      = x.filter (fun e => !((builder.map BElem.name).contains e.name)) := by
    simp only [appendElementsUnique]
    exact List.drop_left builder _
  rw [hdrop, List.filter_filter]
  apply List.filter_congr
  intro e _
  by_cases he : e.name = n
  · subst he
    have hc : (builder.map BElem.name).contains e.name = false := by
      simp [List.contains, h]
    rw [hc]
    simp
  · have hb : (e.name == n) = false := by
      simpa using he
    rw [hb]
    rfl

/-- Witness for C10: two elements named a against an empty builder are both
appended. -/
theorem appendElementsUnique_dup_names_witness :
    (("a" : String) ∉ (([] : List BElem).map BElem.name))
    ∧ ((appendElementsUnique ([] : List BElem)
          [BElem.mk "a" 16 [1], BElem.mk "a" 16 [2]]).drop
            ([] : List BElem).length).filter (fun e => e.name == "a")
        = [BElem.mk "a" 16 [1], BElem.mk "a" 16 [2]] :=
  ⟨by decide, by
    rw [appendElementsUnique_dup_names ([] : List BElem)
      [BElem.mk "a" 16 [1], BElem.mk "a" 16 [2]] "a" (by decide)]
    decide⟩

/-- C7: on a well-formed document, appendElements is a no-op when the
document is empty, and otherwise appends exactly the document bytes with the
4-byte length prefix and the final terminator byte removed (objsize minus 5
bytes), as one contiguous range. -/
theorem appendElements_spec (buf : List Nat) (x : EncodedDoc) (h : x.wf) :
    (x.isEmpty = true → appendElements buf x = buf)
    ∧ (x.isEmpty = false → appendElements buf x = buf ++ x.bytes.dropLast.drop 4) := by
  obtain ⟨hlen, h5, _, _⟩ := h
  constructor
  · intro he
    simp [appendElements, he]
  · intro he
    have h45 : 4 + (x.objsize - 5) = x.objsize - 1 := by omega
    simp only [appendElements, he, Bool.not_false, if_true]
    rw [List.take_drop, List.dropLast_eq_take, hlen, h45]

/-- Witness for C7: a concrete well-formed one-field document of 12 bytes. -/
theorem appendElements_spec_witness :
    (EncodedDoc.mk [12, 0, 0, 0, 16, 97, 0, 1, 0, 0, 0, 0]).wf
    ∧ appendElements [9, 9] (EncodedDoc.mk [12, 0, 0, 0, 16, 97, 0, 1, 0, 0, 0, 0])
        = [9, 9] ++ (EncodedDoc.mk [12, 0, 0, 0, 16, 97, 0, 1, 0, 0, 0, 0]).bytes.dropLast.drop 4 :=
  ⟨⟨by decide, by decide, by decide, by decide⟩,
    (appendElements_spec [9, 9] (EncodedDoc.mk [12, 0, 0, 0, 16, 97, 0, 1, 0, 0, 0, 0])
      ⟨by decide, by decide, by decide, by decide⟩).2 (by decide)⟩

set_option maxRecDepth 8192 in
/-- C8: the numeric-string cache has exactly 1024 entries, the entry at each
index i is the canonical decimal rendering of i, and the readiness flag,
computed from the first entry being non-empty, is true. -/
theorem numStrs_spec :
    numStrs = (List.range 1024).map Nat.repr
    ∧ numStrs.length = 1024
    ∧ numStrsReady = true :=
  ⟨rfl, by decide, rfl⟩

/-! ## Helper lemmas for the numeric coercer -/

/-- A digit character is not the dot. -/
theorem isDigitChar_ne_dot {c : Char} (h : isDigitChar c = true) : c ≠ '.' := by
  rintro rfl
  exact absurd h (by decide)

/-- Digits pass the filter. -/
theorem validChar_of_digit {c : Char} (h : isDigitChar c = true) : validChar c = true := by
  simp [validChar, h]

/-- The scan steps over a digit. -/
theorem scanDigits_cons_digit {c : Char} {rest : List Char} {d : Bool}
    (h : isDigitChar c = true) :
    scanDigits (c :: rest) d = scanDigits rest d := by
  simp [scanDigits, h]

/-- The scan at a dot: fatal if a dot was already seen, else the flag is set. -/
theorem scanDigits_cons_dot {rest : List Char} {d : Bool} :
    scanDigits ('.' :: rest) d = if d then none else scanDigits rest true := by
  simp [scanDigits, show isDigitChar ('.' : Char) = false from by decide]

/-- The scan rejects any other character. -/
theorem scanDigits_cons_other {c : Char} {rest : List Char} {d : Bool}
    (h1 : isDigitChar c = false) (h2 : c ≠ '.') :
    scanDigits (c :: rest) d = none := by
  simp [scanDigits, h1, h2]

/-- Boolean containment on character lists agrees with membership. -/
theorem contains_eq_true_iff {l : List Char} {a : Char} :
    l.contains a = true ↔ a ∈ l := by
  simp [List.contains]

/-- Closed form of the filter loop: it succeeds exactly on texts of digits
and dots with at most one dot in total (counting an already-seen one), and
then reports whether a dot occurred. -/
theorem scanDigits_eq (l : List Char) : ∀ d : Bool,
    scanDigits l d
      = if l.all validChar = true ∧ l.count '.' + d.toNat ≤ 1
        then some (d || l.contains '.')
        else none := by
  induction l with
  | nil =>
    intro d
    rw [if_pos ⟨rfl, by cases d <;> simp⟩]
    simp [scanDigits]
  | cons c rest ih =>
    intro d
    by_cases hdig : isDigitChar c = true
    · have hne : c ≠ '.' := isDigitChar_ne_dot hdig
      have hne1 : (c == '.') = false := by simpa using hne
      have hne2 : ('.' == c) = false := by simpa using Ne.symm hne
      rw [scanDigits_cons_digit hdig, ih d]
      have hres : (d || rest.contains '.') = (d || (c :: rest).contains '.') := by
        simp [List.contains_cons, Ne.symm hne]
      rw [hres]
      refine if_congr ?_ rfl rfl
      simp [List.all_cons, validChar_of_digit hdig, List.count_cons, hne1]
    · by_cases hdot : c = '.'
      · subst hdot
        rw [scanDigits_cons_dot]
        cases d with
        | true =>
          have hcond : ¬(('.' :: rest).all validChar = true
              ∧ ('.' :: rest).count '.' + (true : Bool).toNat ≤ 1) := by
            rintro ⟨-, hcount⟩
            rw [List.count_cons] at hcount
            simp at hcount
          simp [hcond]
        | false =>
          simp only [Bool.false_eq_true, if_false]
          rw [ih true]
          have hres : (true || rest.contains '.')
              = (false || ('.' :: rest).contains '.') := by
            simp [List.contains_cons]
          rw [hres]
          refine if_congr ?_ rfl rfl
          have hv : validChar ('.' : Char) = true := by decide
          have hcnt : ('.' :: rest).count '.' = rest.count '.' + 1 := by
            rw [List.count_cons]
            simp
          rw [List.all_cons, hv, hcnt]
          constructor
          · rintro ⟨ha, hb⟩
            exact ⟨by simpa using ha, by simp at hb ⊢; omega⟩
          · rintro ⟨ha, hb⟩
            exact ⟨by simpa using ha, by simp at hb ⊢; omega⟩
      · have h1 : isDigitChar c = false := by simpa using hdig
        rw [scanDigits_cons_other h1 hdot]
        have hval : validChar c = false := by
          have hb : (c == '.') = false := by simpa using hdot
          simp [validChar, h1, hb]
        have hncond : ¬((c :: rest).all validChar = true
            ∧ (c :: rest).count '.' + d.toNat ≤ 1) := by
          rintro ⟨ha, -⟩
          rw [List.all_cons, hval] at ha
          simp at ha
        rw [if_neg hncond]

/-- A scan over digits only returns the incoming flag unchanged. -/
theorem scanDigits_all_digits (d : Bool) :
    ∀ l : List Char, l.all isDigitChar = true → scanDigits l d = some d := by
  intro l
  induction l with
  | nil => intro _; rfl
  | cons c rest ih =>
    intro h
    rw [List.all_cons, Bool.and_eq_true] at h
    rw [scanDigits_cons_digit h.1]
    exact ih h.2

/-- Membership in the after-the-sign body implies membership in the text. -/
theorem mem_of_mem_body {cs : List Char} {a : Char}
    (h : a ∈ (if cs.head? = some '-' then cs.tail else cs)) : a ∈ cs := by
  split at h
  · exact List.mem_of_mem_tail h
  · exact h

/-- A non-minus member of the text is in the after-the-sign body. -/
theorem mem_body_of_mem {cs : List Char} {a : Char} (hne : a ≠ '-') (h : a ∈ cs) :
    a ∈ (if cs.head? = some '-' then cs.tail else cs) := by
  split
  · rename_i hh
    obtain ⟨ys, hys⟩ := List.head?_eq_some_iff.mp hh
    subst hys
    rcases List.mem_cons.mp h with h1 | h1
    · exact absurd h1 hne
    · exact h1
  · exact h

/-- All-valid characters with no dot present are all digits. -/
theorem all_digit_of_valid_no_dot {l : List Char}
    (hall : l.all validChar = true) (hnd : l.contains '.' = false) :
    l.all isDigitChar = true := by
  rw [List.all_eq_true] at hall ⊢
  intro c hc
  have hv := hall c hc
  rw [validChar, Bool.or_eq_true] at hv
  rcases hv with hv | hv
  · exact hv
  · exfalso
    have hcd : c = '.' := by simpa using hv
    subst hcd
    rw [contains_eq_true_iff.mpr hc] at hnd
    simp at hnd

/-- The positive form of the character-filter condition. -/
theorem numTextOK_true_iff (cs : List Char) :
    numTextOK cs = true
      ↔ ((if cs.head? = some '-' then cs.tail else cs).all validChar = true
          ∧ (if cs.head? = some '-' then cs.tail else cs).count '.' ≤ 1) := by
  rw [numTextOK]
  simp [Bool.and_eq_true]

/-- A character at most the digit nine has code at most 57. -/
theorem toNat_le_of_le_nine {c : Char} (h : c ≤ '9') : c.toNat ≤ 57 := by
  rw [Char.le_def] at h
  exact h

/-- A digit character has digit value at most 9. -/
theorem digitVal_le_nine {c : Char} (h : isDigitChar c = true) : digitVal c ≤ 9 := by
  rw [isDigitChar, Bool.and_eq_true] at h
  have h2 : c ≤ '9' := by simpa using h.2
  have h3 := toNat_le_of_le_nine h2
  rw [digitVal]
  omega

/-- The accumulator bound of the decimal fold. -/
theorem digitsVal_foldl_lt (l : List Char) :
    l.all isDigitChar = true →
      ∀ acc : Nat, List.foldl (fun acc c => 10 * acc + digitVal c) acc l
        < (acc + 1) * 10 ^ l.length := by
  induction l with
  | nil =>
    intro _ acc
    simp
  | cons c rest ih =>
    intro h acc
    rw [List.all_cons, Bool.and_eq_true] at h
    have hd : digitVal c ≤ 9 := digitVal_le_nine h.1
    have hrec := ih h.2 (10 * acc + digitVal c)
    simp only [List.foldl_cons, List.length_cons]
    calc List.foldl (fun acc c => 10 * acc + digitVal c) (10 * acc + digitVal c) rest
        < (10 * acc + digitVal c + 1) * 10 ^ rest.length := hrec
      _ ≤ ((acc + 1) * 10) * 10 ^ rest.length := Nat.mul_le_mul_right _ (by omega)
      _ = (acc + 1) * 10 ^ (rest.length + 1) := by ring

/-- A string of digits has decimal value below ten to its length. -/
theorem digitsVal_lt (l : List Char) (h : l.all isDigitChar = true) :
    digitsVal l < 10 ^ l.length := by
  have hb := digitsVal_foldl_lt l h 0
  simpa [digitsVal] using hb

/-- The none outcomes of the coercer coincide with the claimed rejection
predicate. -/
theorem appendAsNumberCore_none_iff (fieldName : String) (cs : List Char) :
    appendAsNumberCore fieldName cs = none ↔ rejectsSpec cs := by
  by_cases h0 : cs = [] ∨ cs = ['-'] ∨ cs = ['.']
  · unfold appendAsNumberCore
    rw [if_pos h0]
    exact iff_of_true rfl (by rw [rejectsSpec]; tauto)
  · unfold appendAsNumberCore
    rw [if_neg h0, scanDigits_eq]
    by_cases hok : ((if cs.head? = some '-' then cs.tail else cs).all validChar = true
        ∧ (if cs.head? = some '-' then cs.tail else cs).count '.' + (false : Bool).toNat ≤ 1)
    case neg =>
      rw [if_neg hok]
      simp only [Option.none_bind]
      refine iff_of_true (by trivial) ?_
      rw [rejectsSpec]
      refine Or.inr (Or.inr (Or.inr (Or.inl ?_)))
      rw [← Bool.not_eq_true, numTextOK_true_iff]
      intro hc
      exact hok ⟨hc.1, by simpa using hc.2⟩
    case pos =>
      rw [if_pos hok]
      simp only [Option.some_bind, Bool.false_or]
      by_cases hdot : (if cs.head? = some '-' then cs.tail else cs).contains '.' = true
      · rw [if_pos hdot]
        refine iff_of_false (by simp) ?_
        rw [rejectsSpec]
        rintro (h | h | h | h | ⟨hnm, -, -⟩)
        · exact h0 (Or.inl h)
        · exact h0 (Or.inr (Or.inl h))
        · exact h0 (Or.inr (Or.inr h))
        · rw [← Bool.not_eq_true, numTextOK_true_iff] at h
          exact h ⟨hok.1, by simpa using hok.2⟩
        · exact hnm (mem_of_mem_body (contains_eq_true_iff.mp hdot))
      · have hdotf : (if cs.head? = some '-' then cs.tail else cs).contains '.' = false := by
          simpa using hdot
        rw [if_neg hdot]
        by_cases hlen : cs.length < 8
        · rw [if_pos hlen]
          refine iff_of_false (by simp) ?_
          rw [rejectsSpec]
          rintro (h | h | h | h | ⟨-, h8, -⟩)
          · exact h0 (Or.inl h)
          · exact h0 (Or.inr (Or.inl h))
          · exact h0 (Or.inr (Or.inr h))
          · rw [← Bool.not_eq_true, numTextOK_true_iff] at h
            exact h ⟨hok.1, by simpa using hok.2⟩
          · omega
        · rw [if_neg hlen]
          have h8 : 8 ≤ cs.length := by omega
          have hbody_ne : (if cs.head? = some '-' then cs.tail else cs) ≠ [] := by
            split
            · refine List.length_pos.mp ?_
              rw [List.length_tail]
              omega
            · refine List.length_pos.mp ?_
              omega
          have hdigits :
              (if cs.head? = some '-' then cs.tail else cs).all isDigitChar = true :=
            all_digit_of_valid_no_dot hok.1 hdotf
          have hnmem : '.' ∉ cs := by
            intro hm
            have hmb := mem_body_of_mem (by decide) hm
            rw [← contains_eq_true_iff] at hmb
            rw [hmb] at hdotf
            simp at hdotf
          simp only [lexicalCastLL]
          rw [if_pos ⟨hbody_ne, hdigits⟩]
          by_cases hrange : -(2 ^ 63) ≤ decIntVal cs ∧ decIntVal cs < 2 ^ 63
          · rw [if_pos hrange]
            refine iff_of_false (by simp) ?_
            rw [rejectsSpec]
            rintro (h | h | h | h | ⟨-, -, hout⟩)
            · exact h0 (Or.inl h)
            · exact h0 (Or.inr (Or.inl h))
            · exact h0 (Or.inr (Or.inr h))
            · rw [← Bool.not_eq_true, numTextOK_true_iff] at h
              exact h ⟨hok.1, by simpa using hok.2⟩
            · omega
          · rw [if_neg hrange]
            refine iff_of_true (by simp) ?_
            rw [rejectsSpec]
            exact Or.inr (Or.inr (Or.inr (Or.inr ⟨hnmem, h8, by omega⟩)))

/-- Every field the coercer appends carries the requested field name. -/
theorem appendAsNumberCore_names (fieldName : String) (cs : List Char) :
    ((appendAsNumberCore fieldName cs).all fun nf => nf.fname == fieldName) = true := by
  unfold appendAsNumberCore
  by_cases h0 : cs = [] ∨ cs = ['-'] ∨ cs = ['.']
  · rw [if_pos h0]
    rfl
  · rw [if_neg h0]
    cases hscan : scanDigits (if cs.head? = some '-' then cs.tail else cs) false with
    | none => rfl
    | some hasDec =>
      simp only [Option.some_bind]
      by_cases hd : hasDec = true
      · rw [if_pos hd]
        simp [NumField.fname]
      · rw [if_neg hd]
        by_cases hlen : cs.length < 8
        · rw [if_pos hlen]
          simp [NumField.fname]
        · rw [if_neg hlen]
          cases hcast : lexicalCastLL cs with
          | none => rfl
          | some num => simp [NumField.fname]

/-- C4: appendAsNumber returns none — false with the builder untouched —
exactly on the claimed rejection set: empty text, the bare minus or dot, any
character other than an optional single leading minus, decimal digits and at
most one dot, or a dotless text of 8 or more characters whose 64-bit integer
parse fails; in every other case it returns the one appended numeric field,
and that field carries the requested field name. -/
theorem appendAsNumber_rejection (fieldName data : String) :
    (appendAsNumber fieldName data = none ↔ rejectsSpec data.data)
    ∧ ((appendAsNumber fieldName data).all fun nf => nf.fname == fieldName) = true :=
  ⟨appendAsNumberCore_none_iff fieldName data.data,
    appendAsNumberCore_names fieldName data.data⟩

/-- C5: a text of an optional leading minus followed only by decimal digits
and shorter than 8 characters is appended as a 32-bit integer holding its
exact decimal value, which cannot overflow the 32-bit range at that length. -/
theorem appendAsNumber_short_int (fieldName data : String)
    (h1 : intText data.data) (h2 : data.data.length < 8) :
    appendAsNumber fieldName data
        = some (NumField.int32 fieldName (decIntVal data.data))
    ∧ -(2 ^ 31) < decIntVal data.data ∧ decIntVal data.data < 2 ^ 31 := by
  obtain ⟨hne, hall⟩ := h1
  constructor
  · unfold appendAsNumber appendAsNumberCore
    have h0 : ¬(data.data = [] ∨ data.data = ['-'] ∨ data.data = ['.']) := by
      rintro (h | h | h)
      · rw [h] at hne
        exact absurd hne (by decide)
      · rw [h] at hne
        exact absurd hne (by decide)
      · rw [h] at hall
        exact absurd hall (by decide)
    rw [if_neg h0]
    rw [scanDigits_all_digits false _ hall]
    simp only [Option.some_bind]
    rw [if_neg (by simp)]
    rw [if_pos h2]
  · have hlt := digitsVal_lt _ hall
    by_cases hh : data.data.head? = some '-'
    · rw [decIntVal, if_pos hh]
      rw [if_pos hh] at hlt
      have hlen6 : data.data.tail.length ≤ 6 := by
        rw [List.length_tail]
        omega
      have hp : (10 : Nat) ^ data.data.tail.length ≤ 10 ^ 6 :=
        Nat.pow_le_pow_right (by omega) hlen6
      have hv : digitsVal data.data.tail < 1000000 := by
        calc digitsVal data.data.tail < 10 ^ data.data.tail.length := hlt
          _ ≤ 10 ^ 6 := hp
          _ = 1000000 := by norm_num
      omega
    · rw [decIntVal, if_neg hh]
      rw [if_neg hh] at hlt
      have hp : (10 : Nat) ^ data.data.length ≤ 10 ^ 7 :=
        Nat.pow_le_pow_right (by omega) (by omega)
      have hv : digitsVal data.data < 10000000 := by
        calc digitsVal data.data < 10 ^ data.data.length := hlt
          _ ≤ 10 ^ 7 := hp
          _ = 10000000 := by norm_num
      omega

/-- Witness for C5: the text 123 is appended as the 32-bit integer 123. -/
theorem appendAsNumber_short_int_witness :
    intText ("123".data) ∧ "123".data.length < 8
    ∧ appendAsNumber "f" "123" = some (NumField.int32 "f" (decIntVal "123".data)) :=
  ⟨⟨by decide, by decide⟩, by decide,
    (appendAsNumber_short_int "f" "123" ⟨by decide, by decide⟩ (by decide)).1⟩

/-- C9: the two-character text minus-dot passes the filter, takes the
floating-point branch and appends the value zero under the field name, even
though it has no digit; only the bare one-character minus and dot are
rejected up front. -/
theorem appendAsNumber_minus_dot :
    appendAsNumber "f" "-." = some (NumField.dbl "f" 0)
    ∧ appendAsNumber "f" "-" = none
    ∧ appendAsNumber "f" "." = none := by
  refine ⟨?_, by decide, by decide⟩
  have h0 : atofVal ['-', '.'] = 0 := by
    norm_num [atofVal, splitAtDot, digitsVal]
  calc appendAsNumber "f" "-." = some (NumField.dbl "f" (atofVal ['-', '.'])) := rfl
    _ = some (NumField.dbl "f" 0) := by rw [h0]

end BSONBuilder
